import Mathlib

/-!
Shallow embedding of the PDB2PQR structure-preparation pipeline driver
(`pdb2pqr/main.py`): the orchestration logic of `runPDB2PQR` and the
configuration validation of `mainCommand`, together with the data model
(atoms, residues, chains, protein) the pipeline mutates.

The driver module is the authoritative source for control flow: which stage
runs under which option, in which order, and which configuration checks are
performed.  The stage bodies themselves (`routines.py`, `hydrogens.py`,
`forcefield.py`, `protein.py`) are not part of the embedded source tree, so
each stage function below is modelled from the specification's contract for
that stage; every such definition carries a doc comment starting with
`Modelled from the spec:`.

Python `float` values (pH, charges, radii, coordinates) are modelled as `ℚ`.

A number of names referenced by the driver are unbound in its module scope
(`ph`, `ph_calc_options`, `ligand`, `LIG`, `Forcefield`, `HETATM`, `HEADER`,
...): evaluating them raises `NameError` at run time.  These crash points are
embedded faithfully as `Err.unboundName` results at the exact position in
control flow where the source would raise.
-/

set_option autoImplicit false

namespace PDB2PQR

/-- Residue classification tag (amino acid / nucleic acid / ligand / water /
unknown), standing for the `isinstance` dispatch on `aa.Amino`, `na.Nucleic`,
`LIG`, `aa.WAT` in the source. -/
inductive ResidueClass where
  | amino
  | nucleic
  | ligand
  | water
  | other
  deriving DecidableEq, Repr

/-- An atom of the molecular model: identity, 3-D coordinate, force-field
charge and radius (assigned late, initially absent), alternate-location flag,
record type (`ATOM` vs `HETATM`), the `added` flag marking reconstructed
atoms, and the denormalised residue back-reference data (`atom.resName`,
residue class) that the driver reads off atoms in the missed-ligand
bookkeeping. -/
structure Atom where
  serial : Nat
  name : String
  coord : ℚ × ℚ × ℚ
  ffcharge : Option ℚ
  radius : Option ℚ
  altLoc : String
  isAtomRecord : Bool
  added : Bool
  resName : String
  resClass : ResidueClass
  deriving DecidableEq, Repr

/-- A residue: name, sequence number, class tag, titration-relevant flag, the
protonation state chosen for it (absent until assigned), terminus and
disulfide flags, and its ordered atoms. -/
structure Residue where
  name : String
  resSeq : Nat
  rclass : ResidueClass
  titratable : Bool
  protonation : Option String
  isNterm : Bool
  isCterm : Bool
  neutralN : Bool
  neutralC : Bool
  ssBonded : Bool
  atoms : List Atom
  deriving DecidableEq, Repr

/-- A chain: identifier and ordered residues (sequence order defines terminus
identity). -/
structure Chain where
  id : String
  residues : List Residue
  deriving DecidableEq, Repr

/-- The protein structure: owns all chains; atom and residue views are
derived. -/
structure Protein where
  chains : List Chain
  deriving DecidableEq, Repr

/-- All residues of the protein, in chain order (`Protein.getResidues`). -/
def getResidues (p : Protein) : List Residue :=
  (p.chains.map Chain.residues).flatten

/-- All atoms of the protein, in residue order (`Protein.getAtoms`). -/
def getAtoms (p : Protein) : List Atom :=
  ((getResidues p).map Residue.atoms).flatten

/-- Number of `ATOM` (as opposed to `HETATM`) records in the model; the
driver counts these only when a ligand is supplied. -/
def countAtomRecords (p : Protein) : Nat :=
  ((getAtoms p).filter Atom.isAtomRecord).length

/-- Map a function over every residue of the protein, preserving chain
structure. -/
def mapResidues (f : Residue → Residue) (p : Protein) : Protein :=
  { chains := p.chains.map (fun c => { c with residues := c.residues.map f }) }

/-- The titration method selected by `--titration-state-method`. -/
inductive PkaMethod where
  | propka
  | pdb2pka
  deriving DecidableEq, Repr

/-- The configuration record assembled by the argument parser: the options
`runPDB2PQR` and `mainCommand` read. -/
structure Options where
  ff : Option String
  userff : Option String
  usernames : Option String
  clean : Bool
  debump : Bool
  opt : Bool
  chain : Bool
  assign_only : Bool
  ffout : Option String
  ligand : Option String
  typemap : Bool
  neutraln : Bool
  neutralc : Bool
  drop_water : Bool
  include_header : Bool
  pka_method : Option PkaMethod
  ph : ℚ
  isCIF : Bool
  deriving DecidableEq, Repr

/-- External collaborators and run-scoped tables: definition catalog entries,
geometric placement, the debumper's and optimizers' coordinate search
results, default protonation states, force-field and naming-scheme lookup
tables, and the file-system predicates `mainCommand` consults.  These are the
out-of-scope components the spec treats as interfaces. -/
structure Env where
  ffLoadable : Option String → Bool
  ligandFileOk : String → Bool
  requiredAtoms : String → List String
  placeHeavy : Residue → String → ℚ × ℚ × ℚ
  debumpCoord : Atom → ℚ × ℚ × ℚ
  hydrogensFor : Residue → List Atom
  waterOrient : Atom → ℚ × ℚ × ℚ
  fullOrient : Atom → ℚ × ℚ × ℚ
  defaultState : String → String
  forcefield : String → String → String → Option (ℚ × ℚ)
  nameMap : String → String → String

/-- Events recording which pipeline stage bodies executed, in order.  The
driver's calls are traced one event per call (one `applyPatchEv` per patched
residue). -/
inductive StageEvent where
  | setTerminiEv
  | updateBondsEv
  | findMissingHeavyEv
  | updateSSbridgesEv
  | debumpEv
  | addHydrogensEv
  | fullOptimizeEv
  | waterOptimizeEv
  | cleanupEv
  | applyPatchEv (patch : String)
  | setStatesEv
  | applyForcefieldEv
  | applyNameSchemeEv
  deriving DecidableEq, Repr

/-- Structured content of the PQR header built by `printPQRHeader` /
`printPQRHeaderCIF` (serialization formatting itself is out of scope): one
constructor per REMARK block, in the order the source emits them. -/
inductive Remark where
  | generated
  | forcefieldUsed (ff : String)
  | namingScheme (s : String)
  | pkaInfo (method : PkaMethod) (ph : ℚ)
  | unassignedWarning (atoms : List Atom)
  | nonintegralWarning (entries : List (String × ℚ))
  | totalCharge (q : ℚ)
  | oldHeaderFollows
  deriving DecidableEq, Repr

/-- Errors: the fatal configuration rejections `mainCommand` issues through
`parser.error`, plus the run-time failures of the driver itself —
`unboundName s` models the `NameError` raised when the source evaluates the
unbound name `s`, and `attrError s` the `AttributeError` from calling a
method on `None`. -/
inductive Err where
  | usernamesRequired
  | ffUnloadable
  | phOutOfRange
  | pdb2pkaNeedsParse
  | ligandFileMissing
  | neutralnNeedsParse
  | neutralcNeedsParse
  | unboundName (s : String)
  | attrError (s : String)
  deriving DecidableEq, Repr

/-- What `runPDB2PQR` hands back on success: the header, the printed atom
lines (the atoms serialized, in print order — line formatting is external),
the missed-ligand-residue diagnostic (`None` on the clean path, a list on the
full path), the final protein, and — for specification purposes — the
executed-stage trace and the unassigned-atom and non-integral-charge
diagnostic lists that feed the header. -/
structure RunResult where
  header : List Remark
  lines : List Atom
  missedLigands : Option (List String)
  protein : Protein
  trace : List StageEvent
  misslist : List Atom
  reslist : List (String × ℚ)
  deriving DecidableEq, Repr

/-! ### Stage functions

Each is modelled from the spec (its implementation module is outside the
embedded tree); the driver is authoritative only for when they are called. -/

/-- Mark the first residue of a chain as N-terminus.  Helper for
`setTermini`. -/
def markN (nn : Bool) : List Residue → List Residue
  | [] => []
  | r :: rs => { r with isNterm := true, neutralN := nn } :: rs

/-- Mark the last residue of a chain as C-terminus.  Helper for
`setTermini`. -/
def markLast (nc : Bool) : List Residue → List Residue
  | [] => []
  | [r] => [{ r with isCterm := true, neutralC := nc }]
  | r :: s :: rest => r :: markLast nc (s :: rest)

/-- Modelled from the spec: `Routines.setTermini` flags each chain's first
and last residue as N-terminus and C-terminus, configurable to the neutral variant;
termini are computed from chain sequence position.  Atoms and coordinates are
untouched. -/
def setTermini (nn nc : Bool) (p : Protein) : Protein :=
  { chains := p.chains.map (fun c =>
      { c with residues := markLast nc (markN nn c.residues) }) }

/-- Modelled from the spec: `Routines.updateBonds` (re)infers bonds from
template connectivity and distance thresholds.  Bond lists are connectivity
metadata not represented in this model; atoms, coordinates and residue data
are unchanged by bond inference. -/
def updateBonds (p : Protein) : Protein := p

/-- A reconstructed heavy atom, placed from idealized neighboring-atom
geometry (the geometric routine is external) and flagged `added`. -/
def reconstructAtom (env : Env) (r : Residue) (n : String) : Atom :=
  { serial := 0, name := n, coord := env.placeHeavy r n, ffcharge := none,
    radius := none, altLoc := "", isAtomRecord := true, added := true,
    resName := r.name, resClass := r.rclass }

/-- Modelled from the spec: `Routines.findMissingHeavy` gives every residue
the full heavy-atom set its definition-catalog template requires,
reconstructing each missing required atom; a residue type absent from the
catalog (`requiredAtoms` empty) is left unmodified. -/
def findMissingHeavy (env : Env) (p : Protein) : Protein :=
  mapResidues (fun r =>
    let present := r.atoms.map Atom.name
    let missing := (env.requiredAtoms r.name).filter (fun n => !(present.contains n))
    { r with atoms := r.atoms ++ missing.map (reconstructAtom env r) }) p

/-- Squared euclidean distance between two coordinates. -/
def sqDist (u v : ℚ × ℚ × ℚ) : ℚ :=
  (u.1 - v.1) * (u.1 - v.1) + (u.2.1 - v.2.1) * (u.2.1 - v.2.1) +
    (u.2.2 - v.2.2) * (u.2.2 - v.2.2)

/-- Modelled from the spec: `Routines.updateSSbridges` relabels cysteine
pairs whose sulfur atoms lie within the disulfide-bond distance threshold
(2.5 Å here) as disulfide-bonded.  Atoms are unchanged. -/
def updateSSbridges (p : Protein) : Protein :=
  let rs := getResidues p
  mapResidues (fun r =>
    if r.name = "CYS" &&
        rs.any (fun q => decide (q ≠ r) && q.name = "CYS" &&
          r.atoms.any (fun a => a.name = "SG" &&
            q.atoms.any (fun b => b.name = "SG" &&
              decide (sqDist a.coord b.coord ≤ 25 / 4))))
    then { r with ssBonded := true } else r) p

/-- Modelled from the spec: `Routines.debumpProtein` resolves steric clashes
by adjusting torsional degrees of freedom of flexible (recently added)
groups — never of fixed original atoms; the discrete rotamer search is
external, so the chosen coordinates come from the environment.  Only
coordinates of `added` atoms change. -/
def debumpProtein (env : Env) (p : Protein) : Protein :=
  mapResidues (fun r =>
    { r with atoms := r.atoms.map (fun a =>
        if a.added then { a with coord := env.debumpCoord a } else a) }) p

/-- Modelled from the spec: `Routines.addHydrogens` adds the hydrogens
implied by each residue's template, flagged `added` and with no charge or
radius yet. -/
def addHydrogens (env : Env) (p : Protein) : Protein :=
  mapResidues (fun r =>
    { r with atoms := r.atoms ++ (env.hydrogensFor r).map (fun a =>
        { a with added := true, ffcharge := none, radius := none,
                 resName := r.name, resClass := r.rclass }) }) p

/-- Modelled from the spec: full hydrogen optimization searches orientations
for all optimizable (added) hydrogens; the search itself is external, so the
selected coordinates come from the environment.  Only coordinates of `added`
atoms change. -/
def fullOptimize (env : Env) (p : Protein) : Protein :=
  mapResidues (fun r =>
    { r with atoms := r.atoms.map (fun a =>
        if a.added then { a with coord := env.fullOrient a } else a) }) p

/-- Modelled from the spec: in water-only mode the optimizer optimizes only
water-molecule orientations — the candidate set is restricted to water
residues, every other residue is untouched. -/
def waterOptResidue (env : Env) (r : Residue) : Residue :=
  if r.rclass = ResidueClass.water then
    { r with atoms := r.atoms.map (fun a => { a with coord := env.waterOrient a }) }
  else r

/-- Water-only hydrogen optimization pass (`initializeWaterOptimization` +
`optimizeHydrogens`). -/
def waterOptimize (env : Env) (p : Protein) : Protein :=
  mapResidues (waterOptResidue env) p

/-- Modelled from the spec: `hydrogenRoutines.cleanup` collapses the
transient dual tautomer/conformer variants (GLH/ASH) to a single retained
state; candidate-variant lists are not represented in this model, so the
represented data is unchanged. -/
def hydCleanup (p : Protein) : Protein := p

/-- The driver's assign-only special case: `applyPatch("HIP", residue)` for
every histidine, forcing the fully protonated variant. -/
def patchHIS (p : Protein) : Protein :=
  mapResidues (fun r =>
    if r.name = "HIS" then { r with protonation := some "HIP" } else r) p

/-- One `applyPatchEv` event per histidine residue patched by the assign-only
special case. -/
def patchEvents (p : Protein) : List StageEvent :=
  (getResidues p).filterMap (fun r =>
    if r.name = "HIS" then some (StageEvent.applyPatchEv "HIP") else none)

/-- Modelled from the spec: `Routines.setStates` finalizes per-residue
protonation states; a residue whose state was not set by titration (or a
patch) falls back to the configured default protonation state for its
residue type.  Atoms are unchanged. -/
def setStates (env : Env) (p : Protein) : Protein :=
  mapResidues (fun r =>
    match r.protonation with
    | none => { r with protonation := some (env.defaultState r.name) }
    | some _ => r) p

/-- The lookup key for a residue in the force-field table: the name of its
chosen protonation-state variant when one was assigned, else its residue
name (the state selection feeds into force-field assignment). -/
def resKey (r : Residue) : String := r.protonation.getD r.name

/-- Modelled from the spec: the force-field lookup for one atom — on hit,
assign charge and radius; on miss, leave the atom untouched (never zeroed). -/
def assignAtom (env : Env) (ff : String) (key : String) (a : Atom) : Atom :=
  match env.forcefield ff key a.name with
  | some cr => { a with ffcharge := some cr.1, radius := some cr.2 }
  | none => a

/-- A residue after force-field assignment of all its atoms. -/
def assignedResidue (env : Env) (ff : String) (r : Residue) : Residue :=
  { r with atoms := r.atoms.map (assignAtom env ff (resKey r)) }

/-- The atoms of one residue whose lookup hit, already annotated, in atom
order. -/
def residueHits (env : Env) (ff : String) (r : Residue) : List Atom :=
  (r.atoms.filter (fun a => (env.forcefield ff (resKey r) a.name).isSome)).map
    (assignAtom env ff (resKey r))

/-- The atoms of one residue whose lookup missed, unchanged, in atom order. -/
def residueMisses (env : Env) (ff : String) (r : Residue) : List Atom :=
  r.atoms.filter (fun a => (env.forcefield ff (resKey r) a.name).isNone)

/-- Modelled from the spec: `Routines.applyForcefield` looks up
(residue key, atom name) for every atom; hits are annotated and collected in
a hit list, misses are left in a missing list returned to the caller.  Both
lists follow the fixed residue/atom traversal order. -/
def applyForcefield (env : Env) (ff : String) (p : Protein) :
    Protein × List Atom × List Atom :=
  (mapResidues (assignedResidue env ff) p,
   ((getResidues p).map (residueHits env ff)).flatten,
   ((getResidues p).map (residueMisses env ff)).flatten)

/-- Rename one atom to the output naming scheme's convention; numeric values
already assigned are not altered. -/
def renameAtom (env : Env) (scheme : String) (a : Atom) : Atom :=
  { a with name := env.nameMap scheme a.name }

/-- Modelled from the spec: `Routines.applyNameScheme` remaps atom names to
the output force field's naming convention after charge/radius assignment,
without altering the numeric values. -/
def applyNameScheme (env : Env) (scheme : String) (p : Protein) : Protein :=
  mapResidues (fun r => { r with atoms := r.atoms.map (renameAtom env scheme) }) p

/-- Net charge of a residue: sum of its atoms' assigned charges (unassigned
atoms contribute zero to the sum, as in `Residue.getCharge`). -/
def netCharge (r : Residue) : ℚ :=
  (r.atoms.map (fun a => a.ffcharge.getD 0)).sum

/-- Python `int()` truncation toward zero, as used by the integral-charge
test `abs(charge - int(charge))`. -/
def pyInt (q : ℚ) : ℤ :=
  if 0 ≤ q then ⌊q⌋ else ⌈q⌉

/-- The non-integral-net-charge test with tolerance 0.001. -/
def nonIntegral (q : ℚ) : Bool :=
  decide ((1 : ℚ) / 1000 < |q - (pyInt q : ℚ)|)

/-- Modelled from the spec: `Protein.getCharge` returns the residues flagged
for non-integral net charge (with their charges) and the total protein
charge. -/
def getCharge (p : Protein) : List (String × ℚ) × ℚ :=
  (((getResidues p).filter (fun r => nonIntegral (netCharge r))).map
      (fun r => (r.name, netCharge r)),
   ((getResidues p).map netCharge).sum)

/-- Python `str.lower()` on the ASCII force-field names this driver
handles. -/
def lowerString (s : String) : String := String.mk (s.data.map Char.toLower)

/-- Lower-case an optional string, mirroring `options.ff.lower()` /
`options.ffout.lower()`. -/
def lowerOpt (s : Option String) : Option String := s.map lowerString

/-! ### Driver: `runPDB2PQR` and `mainCommand` -/

/-- Structured `printPQRHeader` / `printPQRHeaderCIF`: the REMARK blocks in
source order; the unassigned-atom and non-integral-charge warning blocks are
emitted exactly when their lists are non-empty. -/
def printPQRHeader (misslist : List Atom) (reslist : List (String × ℚ))
    (charge : ℚ) (ffLower : String) (opts : Options) : List Remark :=
  [Remark.generated, Remark.forcefieldUsed ffLower]
  ++ (match opts.ffout with
      | some s => [Remark.namingScheme s]
      | none => [])
  ++ (match opts.pka_method with
      | some m => [Remark.pkaInfo m opts.ph]
      | none => [])
  ++ (if misslist.isEmpty then [] else [Remark.unassignedWarning misslist])
  ++ (if reslist.isEmpty then [] else [Remark.nonintegralWarning reslist])
  ++ [Remark.totalCharge charge]
  ++ (if opts.include_header then [Remark.oldHeaderFollows] else [])

/-- The missed-ligand-residue names collected from the final missing list:
residue names of missed atoms that are neither amino acid nor nucleic acid,
first occurrence order, no duplicates. -/
def missedLigandResidues (miss : List Atom) : List String :=
  miss.foldl (fun acc a =>
    if a.resClass = ResidueClass.amino ∨ a.resClass = ResidueClass.nucleic then acc
    else if acc.contains a.resName then acc
    else acc ++ [a.resName]) []

/-- Missing-heavy-atom reconstruction, skipped (in the source) when the
model has no `ATOM` records but a ligand is present. -/
def fmhStep (env : Env) (doIt : Bool) (p : Protein) : Protein × List StageEvent :=
  if doIt then (findMissingHeavy env p, [StageEvent.findMissingHeavyEv])
  else (p, [])

/-- One optional debumping pass (`if options.debump`). -/
def debumpStep (env : Env) (doIt : Bool) (p : Protein) : Protein × List StageEvent :=
  if doIt then (debumpProtein env p, [StageEvent.debumpEv])
  else (p, [])

/-- The optimizer dispatch: full optimization when requested, otherwise the
water-only mode. -/
def optStep (env : Env) (full : Bool) (p : Protein) : Protein × List StageEvent :=
  if full then (fullOptimize env p, [StageEvent.fullOptimizeEv])
  else (waterOptimize env p, [StageEvent.waterOptimizeEv])

/-- The chemistry block of `runPDB2PQR` (source lines 321–362): either the
full repair/debump/titration/hydrogen sequence, or — under `assign-only` —
only the HIS→HIP patch.  On the full path, selecting a titration method
makes the source evaluate the unbound name `ph` (lines 333/335), raising
`NameError` after the first debump pass and before hydrogen addition. -/
def chemistryStages (env : Env) (opts : Options) (atomcount : Nat)
    (p2 : Protein) : Except Err (Protein × List StageEvent) :=
  if opts.assign_only then
    Except.ok (patchHIS p2, patchEvents p2)
  else
    let s3 := fmhStep env (!(atomcount == 0 && opts.ligand.isSome)) p2
    let p4 := updateSSbridges s3.1
    let s5 := debumpStep env opts.debump p4
    if opts.pka_method.isSome then
      Except.error (Err.unboundName "ph")
    else
      let p6 := addHydrogens env s5.1
      let s7 := debumpStep env opts.debump p6
      let s8 := optStep env opts.opt s7.1
      let p9 := hydCleanup s8.1
      Except.ok (p9,
        s3.2 ++ [StageEvent.updateSSbridgesEv] ++ s5.2
          ++ [StageEvent.addHydrogensEv] ++ s7.2 ++ s8.2 ++ [StageEvent.cleanupEv])

/-- The full trace of a completed full-path run. -/
def fullTrace (trChem : List StageEvent) (renamed : Bool) : List StageEvent :=
  [StageEvent.setTerminiEv, StageEvent.updateBondsEv] ++ trChem
  ++ [StageEvent.setStatesEv, StageEvent.applyForcefieldEv]
  ++ (if renamed then [StageEvent.applyNameSchemeEv] else [])

/-- The model after the unconditional pre-clean steps: termini assignment
followed by bond update (source lines 298–299, which run on both paths). -/
def prepped (opts : Options) (p : Protein) : Protein :=
  updateBonds (setTermini opts.neutraln opts.neutralc p)

/-- The `ATOM`-record count the driver uses to decide whether to skip
missing-heavy-atom reconstruction: counted only when a ligand is supplied,
kept at zero otherwise. -/
def chemCount (opts : Options) (p : Protein) : Nat :=
  if opts.ligand.isSome then countAtomRecords p else 0

/-- The final result of a completed full-path run: force-field assignment of
the state-finalized chemistry outcome `st`, then the total-charge and
non-integral diagnostics, the optional naming-scheme remap, the header and
the printed hit-list atoms (source lines 363–451). -/
def fullRunResult (env : Env) (opts : Options) (ffLower : String)
    (st : Protein × List StageEvent) (ren : Option String) : RunResult :=
  let af := applyForcefield env ffLower (setStates env st.1)
  let gc := getCharge af.1
  { header := printPQRHeader af.2.2 gc.1 gc.2 ffLower opts,
    lines := match ren with
             | some s => (af.2.1).map (renameAtom env s)
             | none => af.2.1,
    missedLigands := some (missedLigandResidues af.2.2),
    protein := match ren with
               | some s => applyNameScheme env s af.1
               | none => af.1,
    trace := fullTrace st.2 ren.isSome,
    misslist := af.2.2,
    reslist := gc.1 }

/-- The tail of `runPDB2PQR` (source lines 406–451): header construction and
return.  Requesting the original PDB header (non-CIF) makes `getOldHeader`
evaluate the unbound names `HEADER`, `TITLE`, ..., raising `NameError` while
the header is printed. -/
def finishRun (env : Env) (opts : Options) (ffLower : String)
    (st : Protein × List StageEvent) (ren : Option String) :
    Except Err RunResult :=
  if opts.include_header && !opts.isCIF then
    Except.error (Err.unboundName "HEADER")
  else
    Except.ok (fullRunResult env opts ffLower st ren)

/-- The pipeline driver `runPDB2PQR` (source lines 222–451).

Control flow from the source: dropping waters evaluates the unbound record
class names (`HETATM`, ...) and raises; the `ATOM` records are counted only
when a ligand is supplied; termini assignment and bond update run
unconditionally; the clean fast path then returns the atoms re-serialized
as-is with an empty header and `None` for the missed-ligand diagnostic;
otherwise the chemistry block runs, states are finalized, the force field is
applied (the source's `ff` local is unbound when no `--ff` was given), the
ligand block evaluates the unbound class name `LIG` as soon as it inspects a
residue, charges are summed, an output naming scheme different from the
force field evaluates the unbound name `Forcefield`, and the header, lines
and missed-ligand diagnostics are returned. -/
def runPDB2PQR (env : Env) (opts : Options) (pin : Protein) :
    Except Err RunResult :=
  if opts.drop_water then Except.error (Err.unboundName "HETATM")
  else if opts.clean then
    Except.ok
      { header := [], lines := getAtoms (prepped opts pin), missedLigands := none,
        protein := prepped opts pin,
        trace := [StageEvent.setTerminiEv, StageEvent.updateBondsEv],
        misslist := [], reslist := [] }
  else
    match chemistryStages env opts (chemCount opts pin) (prepped opts pin) with
    | Except.error e => Except.error e
    | Except.ok st =>
      match lowerOpt opts.ff with
      | none => Except.error (Err.unboundName "ff")
      | some ffLower =>
        if opts.ligand.isSome &&
            !(getResidues (applyForcefield env ffLower (setStates env st.1)).1).isEmpty then
          Except.error (Err.unboundName "LIG")
        else
          match lowerOpt opts.ffout with
          | some scheme =>
            if scheme = ffLower then finishRun env opts ffLower st (some scheme)
            else Except.error (Err.unboundName "Forcefield")
          | none => finishRun env opts ffLower st none

/-- `--ff` names the PARSE force field (`args.ff.lower() == 'parse'` guarded
by `args.ff is None`). -/
def ffIsParse : Option String → Bool
  | none => false
  | some f => lowerString f == "parse"

/-- The configuration checks `mainCommand` performs only when `--clean` was
not given: the `--userff`/`--usernames` pairing, force-field parameter-file
loadability, and the pH range check `(ph < 0) or (ph > 14)`. -/
def validateNonClean (env : Env) (args : Options) : Except Err Unit := do
  if args.userff.isSome && args.usernames.isNone then
    throw Err.usernamesRequired
  if !(env.ffLoadable args.ff) then
    throw Err.ffUnloadable
  if args.ph < 0 ∨ 14 < args.ph then
    throw Err.phOutOfRange

/-- The command-line driver `mainCommand` (source lines 531–658): forces
`debump`/`opt` off under `--assign-only` or `--clean`, runs the
clean-guarded validation, checks that PDB2PKA gets the PARSE force field
(calling `.lower()` on `None` when no `--ff` was given), that the ligand
file opens, and that the terminus-neutrality options come with PARSE; then
invokes the pipeline.  File parsing and output writing are external. -/
def mainCommand (env : Env) (args0 : Options) (pin : Protein) :
    Except Err RunResult := do
  let args := if args0.assign_only || args0.clean
              then { args0 with debump := false, opt := false }
              else args0
  if !args.clean then
    validateNonClean env args
  match args.pka_method with
  | some PkaMethod.propka => pure ()
  | some PkaMethod.pdb2pka =>
    match args.ff with
    | none => throw (Err.attrError "ff")
    | some f => if lowerString f = "parse" then pure () else throw Err.pdb2pkaNeedsParse
  | none => pure ()
  match args.ligand with
  | some lg => if env.ligandFileOk lg then pure () else throw Err.ligandFileMissing
  | none => pure ()
  if args.neutraln && !(ffIsParse args.ff) then
    throw Err.neutralnNeedsParse
  if args.neutralc && !(ffIsParse args.ff) then
    throw Err.neutralcNeedsParse
  runPDB2PQR env args pin

/-! ### Projection helpers for stating closed facts about run outcomes -/

instance : DecidableEq (Except Err RunResult) := fun a b =>
  match a, b with
  | Except.ok x, Except.ok y =>
    if h : x = y then isTrue (by rw [h]) else isFalse (by intro hc; injection hc; exact h (by assumption))
  | Except.error x, Except.error y =>
    if h : x = y then isTrue (by rw [h]) else isFalse (by intro hc; injection hc; exact h (by assumption))
  | Except.ok _, Except.error _ => isFalse (by intro hc; exact Except.noConfusion hc)
  | Except.error _, Except.ok _ => isFalse (by intro hc; exact Except.noConfusion hc)

instance : DecidableEq (Except Err Unit) := fun a b =>
  match a, b with
  | Except.ok x, Except.ok y =>
    if h : x = y then isTrue (by rw [h]) else isFalse (by intro hc; injection hc; exact h (by assumption))
  | Except.error x, Except.error y =>
    if h : x = y then isTrue (by rw [h]) else isFalse (by intro hc; injection hc; exact h (by assumption))
  | Except.ok _, Except.error _ => isFalse (by intro hc; exact Except.noConfusion hc)
  | Except.error _, Except.ok _ => isFalse (by intro hc; exact Except.noConfusion hc)

/-- Whether a run completed without raising. -/
def isOkRun (e : Except Err RunResult) : Bool :=
  match e with
  | Except.ok _ => true
  | Except.error _ => false

/-- The empty run result, used as the default projection for failed runs. -/
def emptyResult : RunResult :=
  { header := [], lines := [], missedLigands := none,
    protein := { chains := [] }, trace := [], misslist := [], reslist := [] }

/-- Project the result of a run, defaulting to `emptyResult` on failure. -/
def resultOrDefault (e : Except Err RunResult) : RunResult :=
  match e with
  | Except.ok r => r
  | Except.error _ => emptyResult

/-- The executed-stage trace of a run ([] if the run raised). -/
def runTrace (e : Except Err RunResult) : List StageEvent :=
  (resultOrDefault e).trace

/-- The stage events that belong to Structural Repair (spec §4.1: termini
fixups, bond inference, missing-heavy-atom reconstruction, disulfide
detection). -/
def repairEvents : List StageEvent :=
  [StageEvent.setTerminiEv, StageEvent.updateBondsEv,
   StageEvent.findMissingHeavyEv, StageEvent.updateSSbridgesEv]

/-- The stage events `assign-only` is documented to skip: atom
reconstruction, disulfide detection, debumping, hydrogen addition and
optimization. -/
def skippedAssignEvents : List StageEvent :=
  [StageEvent.findMissingHeavyEv, StageEvent.updateSSbridgesEv,
   StageEvent.debumpEv, StageEvent.addHydrogensEv,
   StageEvent.fullOptimizeEv, StageEvent.waterOptimizeEv,
   StageEvent.cleanupEv]

/-- The identity data of an atom left untouched by parameter annotation:
serial, name and coordinate. -/
def stripAtom (a : Atom) : Nat × String × (ℚ × ℚ × ℚ) :=
  (a.serial, a.name, a.coord)

/-- An atom (or a whole model) is unannotated when no charge or radius has
been assigned yet — the state of every parsed input atom. -/
def unassignedAtom (a : Atom) : Prop :=
  a.ffcharge = none ∧ a.radius = none

/-- Every atom of the model is unannotated. -/
def unassignedP (p : Protein) : Prop :=
  ∀ a ∈ getAtoms p, unassignedAtom a

/-! ### Concrete test fixtures -/

/-- A benign concrete environment: every lookup succeeds, geometry and
searches leave coordinates in place, the default protonation state of a
residue type is its own name. -/
def env0 : Env :=
  { ffLoadable := fun _ => true
    ligandFileOk := fun _ => true
    requiredAtoms := fun _ => []
    placeHeavy := fun _ _ => (0, 0, 0)
    debumpCoord := fun a => a.coord
    hydrogensFor := fun _ => []
    waterOrient := fun a => a.coord
    fullOrient := fun a => a.coord
    defaultState := fun n => n
    forcefield := fun _ _ _ => some (0, 1)
    nameMap := fun _ n => n }

/-- Environment whose force field has no parameters for an atom named
`"N"`. -/
def envMiss : Env :=
  { env0 with forcefield := fun _ _ n => if n = "N" then none else some (0, 1) }

/-- Environment in which no force-field parameter file can be loaded and the
default protonation state of histidine is the neutral `"HSE"` variant. -/
def envStrict : Env :=
  { env0 with ffLoadable := fun _ => false, defaultState := fun _ => "HSE" }

/-- A backbone nitrogen atom of a glycine residue. -/
def atomN : Atom :=
  { serial := 1, name := "N", coord := (0, 0, 0), ffcharge := none,
    radius := none, altLoc := "", isAtomRecord := true, added := false,
    resName := "GLY", resClass := ResidueClass.amino }

/-- A carbon atom of a histidine residue. -/
def atomCH : Atom :=
  { serial := 2, name := "CA", coord := (1, 0, 0), ffcharge := none,
    radius := none, altLoc := "", isAtomRecord := true, added := false,
    resName := "HIS", resClass := ResidueClass.amino }

/-- A one-atom glycine residue. -/
def resGLY : Residue :=
  { name := "GLY", resSeq := 1, rclass := ResidueClass.amino,
    titratable := false, protonation := none, isNterm := false,
    isCterm := false, neutralN := false, neutralC := false,
    ssBonded := false, atoms := [atomN] }

/-- A one-atom titratable histidine residue. -/
def resHIS : Residue :=
  { name := "HIS", resSeq := 2, rclass := ResidueClass.amino,
    titratable := true, protonation := none, isNterm := false,
    isCterm := false, neutralN := false, neutralC := false,
    ssBonded := false, atoms := [atomCH] }

/-- A single-chain, single-residue protein. -/
def prot1 : Protein :=
  { chains := [{ id := "A", residues := [resGLY] }] }

/-- A single-chain protein containing a glycine and a histidine. -/
def protHIS : Protein :=
  { chains := [{ id := "A", residues := [resGLY, resHIS] }] }

/-- A benign full-path configuration: PARSE force field, no ligand, no
output scheme, default flags. -/
def optsBase : Options :=
  { ff := some "PARSE", userff := none, usernames := none, clean := false,
    debump := true, opt := true, chain := false, assign_only := false,
    ffout := none, ligand := none, typemap := false, neutraln := false,
    neutralc := false, drop_water := false, include_header := false,
    pka_method := none, ph := 7, isCIF := false }

/-- The clean fast-path configuration. -/
def optsClean : Options :=
  { optsBase with clean := true }

/-- A clean configuration with a pH far outside the valid range. -/
def optsCleanBadPh : Options :=
  { optsBase with clean := true, ph := 20 }

/-- The assign-only configuration (`mainCommand` also forces `debump` and
`opt` off for it). -/
def optsAssign : Options :=
  { optsBase with assign_only := true, debump := false, opt := false }

/-- A full-path configuration selecting the PROPKA titration method. -/
def optsPropka : Options :=
  { optsBase with pka_method := some PkaMethod.propka }

/-- A full-path configuration supplying a MOL2 ligand. -/
def optsLigand : Options :=
  { optsBase with ligand := some "ligand.mol2" }

/-- A full-path configuration with hydrogen optimization not requested. -/
def optsNoOpt : Options :=
  { optsBase with opt := false }

/-- The concrete result of the clean run on the fixture model. -/
def cleanRunResult : RunResult :=
  resultOrDefault (runPDB2PQR env0 optsClean prot1)

/-- The concrete result of the full-path run in which atom `"N"` has no
force-field parameters. -/
def missRunResult : RunResult :=
  resultOrDefault (runPDB2PQR envMiss optsBase prot1)

/-- The concrete result of the assign-only run on the histidine fixture. -/
def assignRunResult : RunResult :=
  resultOrDefault (runPDB2PQR env0 optsAssign protHIS)

/-- The concrete result of the full-path run without hydrogen
optimization. -/
def noOptRunResult : RunResult :=
  resultOrDefault (runPDB2PQR env0 optsNoOpt prot1)

/-- A non-clean configuration with a pH far outside the valid range. -/
def optsBadPh : Options :=
  { optsBase with ph := 20 }

/-- A clean configuration that additionally violates every clean-guarded
validation rule: out-of-range pH, a user force field without a names file,
and a force-field selection whose parameter file does not load. -/
def optsCleanChaos : Options :=
  { optsBase with
    clean := true,
    ph := 20,
    ff := some "bogus",
    userff := some "user.dat",
    usernames := none }

/-! ### List and view lemmas -/

theorem map_eq_of_forall {α β : Type} (f g : α → β) (h : ∀ a, f a = g a) :
    ∀ l : List α, l.map f = l.map g
  | [] => rfl
  | a :: l => by rw [List.map_cons, List.map_cons, h a, map_eq_of_forall f g h l]

theorem markN_atoms (nn : Bool) (l : List Residue) :
    (markN nn l).map Residue.atoms = l.map Residue.atoms := by
  cases l <;> rfl

theorem markLast_atoms (nc : Bool) :
    ∀ l : List Residue, (markLast nc l).map Residue.atoms = l.map Residue.atoms
  | [] => rfl
  | [_] => rfl
  | r :: s :: t => by
    have ih := markLast_atoms nc (s :: t)
    simp only [markLast, List.map_cons] at ih ⊢
    rw [ih]

theorem getResidues_mapResidues (f : Residue → Residue) (p : Protein) :
    getResidues (mapResidues f p) = (getResidues p).map f := by
  unfold getResidues mapResidues
  rw [List.map_map, List.map_flatten, List.map_map]
  rfl

theorem getAtoms_mapResidues (f : Residue → Residue) (p : Protein) :
    getAtoms (mapResidues f p) =
      ((getResidues p).map (fun r => (f r).atoms)).flatten := by
  rw [getAtoms, getResidues_mapResidues, List.map_map]
  rfl

theorem getAtoms_mapResidues_of_atoms_eq (g : Residue → Residue) (p : Protein)
    (hg : ∀ r, (g r).atoms = r.atoms) :
    getAtoms (mapResidues g p) = getAtoms p := by
  rw [getAtoms_mapResidues]
  unfold getAtoms
  congr 1
  exact map_eq_of_forall _ _ hg _

theorem getAtoms_setTermini (nn nc : Bool) (p : Protein) :
    getAtoms (setTermini nn nc p) = getAtoms p := by
  unfold getAtoms getResidues setTermini
  rw [List.map_map, List.map_flatten, List.map_flatten, List.map_map, List.map_map]
  congr 1
  congr 1
  apply map_eq_of_forall
  intro c
  simp only [Function.comp_apply]
  show (markLast nc (markN nn c.residues)).map Residue.atoms = c.residues.map Residue.atoms
  rw [markLast_atoms, markN_atoms]

theorem mem_getAtoms {p : Protein} {a : Atom} :
    a ∈ getAtoms p ↔ ∃ r ∈ getResidues p, a ∈ r.atoms := by
  unfold getAtoms
  rw [List.mem_flatten]
  constructor
  · rintro ⟨l, hl, hal⟩
    rcases List.mem_map.mp hl with ⟨r, hr, rfl⟩
    exact ⟨r, hr, hal⟩
  · rintro ⟨r, hr, har⟩
    exact ⟨r.atoms, List.mem_map.mpr ⟨r, hr, rfl⟩, har⟩

/-! ### Preservation of the unannotated state through the chemistry stages -/

theorem unassigned_of_mem (p : Protein) (h : unassignedP p) {r : Residue}
    (hr : r ∈ getResidues p) : ∀ a ∈ r.atoms, unassignedAtom a :=
  fun a ha => h a (mem_getAtoms.mpr ⟨r, hr, ha⟩)

theorem unassignedP_mapResidues (g : Residue → Residue) (p : Protein)
    (hg : ∀ r, (∀ a ∈ r.atoms, unassignedAtom a) → ∀ a ∈ (g r).atoms, unassignedAtom a)
    (h : unassignedP p) : unassignedP (mapResidues g p) := by
  intro a ha
  rcases mem_getAtoms.mp ha with ⟨r', hr', ha'⟩
  rw [getResidues_mapResidues] at hr'
  rcases List.mem_map.mp hr' with ⟨r, hr, rfl⟩
  exact hg r (unassigned_of_mem p h hr) a ha'

theorem unassignedP_of_atoms_eq (g : Residue → Residue) (p : Protein)
    (hg : ∀ r, (g r).atoms = r.atoms) (h : unassignedP p) :
    unassignedP (mapResidues g p) := by
  intro a ha
  rw [getAtoms_mapResidues_of_atoms_eq g p hg] at ha
  exact h a ha

theorem unassigned_setTermini (nn nc : Bool) (p : Protein) (h : unassignedP p) :
    unassignedP (setTermini nn nc p) := by
  intro a ha
  rw [getAtoms_setTermini] at ha
  exact h a ha

theorem unassigned_findMissingHeavy (env : Env) (p : Protein) (h : unassignedP p) :
    unassignedP (findMissingHeavy env p) := by
  apply unassignedP_mapResidues _ _ _ h
  intro r hr a ha
  dsimp only at ha
  rcases List.mem_append.mp ha with h1 | h2
  · exact hr a h1
  · rcases List.mem_map.mp h2 with ⟨n, _, rfl⟩
    exact ⟨rfl, rfl⟩

theorem unassigned_updateSSbridges (p : Protein) (h : unassignedP p) :
    unassignedP (updateSSbridges p) := by
  unfold updateSSbridges
  apply unassignedP_of_atoms_eq _ _ _ h
  intro r
  dsimp only
  split <;> rfl

theorem unassigned_debumpProtein (env : Env) (p : Protein) (h : unassignedP p) :
    unassignedP (debumpProtein env p) := by
  apply unassignedP_mapResidues _ _ _ h
  intro r hr a ha
  dsimp only at ha
  rcases List.mem_map.mp ha with ⟨b, hb, rfl⟩
  have hub := hr b hb
  split
  · exact hub
  · exact hub

theorem unassigned_addHydrogens (env : Env) (p : Protein) (h : unassignedP p) :
    unassignedP (addHydrogens env p) := by
  apply unassignedP_mapResidues _ _ _ h
  intro r hr a ha
  dsimp only at ha
  rcases List.mem_append.mp ha with h1 | h2
  · exact hr a h1
  · rcases List.mem_map.mp h2 with ⟨b, _, rfl⟩
    exact ⟨rfl, rfl⟩

theorem unassigned_fullOptimize (env : Env) (p : Protein) (h : unassignedP p) :
    unassignedP (fullOptimize env p) := by
  apply unassignedP_mapResidues _ _ _ h
  intro r hr a ha
  dsimp only at ha
  rcases List.mem_map.mp ha with ⟨b, hb, rfl⟩
  have hub := hr b hb
  split
  · exact hub
  · exact hub

theorem unassigned_waterOptimize (env : Env) (p : Protein) (h : unassignedP p) :
    unassignedP (waterOptimize env p) := by
  apply unassignedP_mapResidues _ _ _ h
  intro r hr a ha
  unfold waterOptResidue at ha
  split at ha
  · rcases List.mem_map.mp ha with ⟨b, hb, rfl⟩
    exact hr b hb
  · exact hr a ha

theorem unassigned_patchHIS (p : Protein) (h : unassignedP p) :
    unassignedP (patchHIS p) := by
  apply unassignedP_of_atoms_eq _ _ _ h
  intro r
  dsimp only
  split <;> rfl

theorem unassigned_setStates (env : Env) (p : Protein) (h : unassignedP p) :
    unassignedP (setStates env p) := by
  apply unassignedP_of_atoms_eq _ _ _ h
  intro r
  dsimp only
  split <;> rfl

theorem unassigned_fmhStep (env : Env) (b : Bool) (p : Protein)
    (h : unassignedP p) : unassignedP (fmhStep env b p).1 := by
  unfold fmhStep
  split
  · exact unassigned_findMissingHeavy env p h
  · exact h

theorem unassigned_debumpStep (env : Env) (b : Bool) (p : Protein)
    (h : unassignedP p) : unassignedP (debumpStep env b p).1 := by
  unfold debumpStep
  split
  · exact unassigned_debumpProtein env p h
  · exact h

theorem unassigned_optStep (env : Env) (b : Bool) (p : Protein)
    (h : unassignedP p) : unassignedP (optStep env b p).1 := by
  unfold optStep
  split
  · exact unassigned_fullOptimize env p h
  · exact unassigned_waterOptimize env p h

theorem chemistryStages_unassigned (env : Env) (opts : Options) (ac : Nat)
    (p2 p9 : Protein) (tr : List StageEvent)
    (h : chemistryStages env opts ac p2 = Except.ok (p9, tr))
    (hp : unassignedP p2) : unassignedP p9 := by
  unfold chemistryStages at h
  split at h
  · simp only [Except.ok.injEq, Prod.mk.injEq] at h
    obtain ⟨h1, _⟩ := h
    subst h1
    exact unassigned_patchHIS p2 hp
  · split at h
    · exact Except.noConfusion h
    · simp only [Except.ok.injEq, Prod.mk.injEq] at h
      obtain ⟨h1, _⟩ := h
      subst h1
      exact unassigned_optStep env opts.opt _
        (unassigned_debumpStep env opts.debump _
          (unassigned_addHydrogens env _
            (unassigned_debumpStep env opts.debump _
              (unassigned_updateSSbridges _
                (unassigned_fmhStep env _ p2 hp)))))

/-! ### Force-field assignment lemmas -/

theorem stripAtom_assignAtom (env : Env) (ff key : String) (a : Atom) :
    stripAtom (assignAtom env ff key a) = stripAtom a := by
  unfold assignAtom
  split <;> rfl

theorem assignedResidue_strip (env : Env) (ff : String) (r : Residue) :
    (assignedResidue env ff r).atoms.map stripAtom = r.atoms.map stripAtom := by
  unfold assignedResidue
  dsimp only
  rw [List.map_map]
  exact map_eq_of_forall _ _ (fun a => stripAtom_assignAtom env ff (resKey r) a) r.atoms

theorem applyForcefield_strip (env : Env) (ff : String) (p : Protein) :
    (getAtoms (applyForcefield env ff p).1).map stripAtom =
      (getAtoms p).map stripAtom := by
  show (getAtoms (mapResidues (assignedResidue env ff) p)).map stripAtom = _
  rw [getAtoms_mapResidues]
  unfold getAtoms
  rw [List.map_flatten, List.map_flatten, List.map_map, List.map_map]
  congr 1
  exact map_eq_of_forall _ _ (fun r => assignedResidue_strip env ff r) _

theorem applyForcefield_miss_unassigned (env : Env) (ff : String) (p : Protein)
    (h : unassignedP p) :
    ∀ a ∈ (applyForcefield env ff p).2.2, unassignedAtom a := by
  intro a ha
  rcases List.mem_flatten.mp ha with ⟨l, hl, hal⟩
  rcases List.mem_map.mp hl with ⟨r, hr, rfl⟩
  unfold residueMisses at hal
  exact unassigned_of_mem p h hr a (List.mem_of_mem_filter hal)

theorem applyForcefield_hit_assigned (env : Env) (ff : String) (p : Protein) :
    ∀ a ∈ (applyForcefield env ff p).2.1, a.ffcharge ≠ none := by
  intro a ha
  rcases List.mem_flatten.mp ha with ⟨l, hl, hal⟩
  rcases List.mem_map.mp hl with ⟨r, hr, rfl⟩
  unfold residueHits at hal
  rcases List.mem_map.mp hal with ⟨b, hb, rfl⟩
  have hsome : (env.forcefield ff (resKey r) b.name).isSome := (List.mem_filter.mp hb).2
  unfold assignAtom
  cases hcr : env.forcefield ff (resKey r) b.name with
  | none => rw [hcr] at hsome; exact absurd hsome (by simp)
  | some cr => simp

theorem renameAtom_ffcharge (env : Env) (s : String) (a : Atom) :
    (renameAtom env s a).ffcharge = a.ffcharge := rfl

/-! ### Stage-event bookkeeping lemmas -/

theorem fmhStep_snd (env : Env) (b : Bool) (p : Protein) :
    (fmhStep env b p).2 = if b then [StageEvent.findMissingHeavyEv] else [] := by
  unfold fmhStep
  split <;> simp_all

theorem debumpStep_snd (env : Env) (b : Bool) (p : Protein) :
    (debumpStep env b p).2 = if b then [StageEvent.debumpEv] else [] := by
  unfold debumpStep
  split <;> simp_all

theorem optStep_snd (env : Env) (b : Bool) (p : Protein) :
    (optStep env b p).2 =
      if b then [StageEvent.fullOptimizeEv] else [StageEvent.waterOptimizeEv] := by
  unfold optStep
  split <;> simp_all

theorem patchEvents_mem (p : Protein) :
    ∀ e ∈ patchEvents p, e = StageEvent.applyPatchEv "HIP" := by
  intro e he
  unfold patchEvents at he
  rcases List.mem_filterMap.mp he with ⟨r, _, hr⟩
  split at hr
  · exact (Option.some.inj hr).symm
  · exact Option.noConfusion hr

theorem chemistryStages_assign (env : Env) (opts : Options) (ac : Nat)
    (p2 : Protein) (h : opts.assign_only = true) :
    chemistryStages env opts ac p2 = Except.ok (patchHIS p2, patchEvents p2) := by
  simp [chemistryStages, h]

theorem chemistryStages_ok_trace (env : Env) (opts : Options) (ac : Nat)
    (p2 p9 : Protein) (tr : List StageEvent)
    (h : chemistryStages env opts ac p2 = Except.ok (p9, tr))
    (ha : opts.assign_only = false) :
    tr = (if !(ac == 0 && opts.ligand.isSome) then [StageEvent.findMissingHeavyEv] else [])
      ++ [StageEvent.updateSSbridgesEv]
      ++ (if opts.debump then [StageEvent.debumpEv] else [])
      ++ [StageEvent.addHydrogensEv]
      ++ (if opts.debump then [StageEvent.debumpEv] else [])
      ++ (if opts.opt then [StageEvent.fullOptimizeEv] else [StageEvent.waterOptimizeEv])
      ++ [StageEvent.cleanupEv] := by
  unfold chemistryStages at h
  rw [if_neg (by simp [ha])] at h
  split at h
  · exact Except.noConfusion h
  · simp only [Except.ok.injEq, Prod.mk.injEq] at h
    obtain ⟨_, h2⟩ := h
    rw [← h2, fmhStep_snd, debumpStep_snd, debumpStep_snd, optStep_snd]

/-! ### Driver path characterizations -/

theorem runPDB2PQR_clean_eq (env : Env) (opts : Options) (p : Protein)
    (h1 : opts.clean = true) (h2 : opts.drop_water = false) :
    runPDB2PQR env opts p = Except.ok
      { header := [],
        lines := getAtoms (prepped opts p),
        missedLigands := none,
        protein := prepped opts p,
        trace := [StageEvent.setTerminiEv, StageEvent.updateBondsEv],
        misslist := [], reslist := [] } := by
  simp [runPDB2PQR, h1, h2]

theorem runPDB2PQR_ok_inv (env : Env) (opts : Options) (p : Protein)
    (r : RunResult) (hc : opts.clean = false)
    (h : runPDB2PQR env opts p = Except.ok r) :
    ∃ (st : Protein × List StageEvent) (ffLower : String) (ren : Option String),
      chemistryStages env opts (chemCount opts p) (prepped opts p) = Except.ok st ∧
      lowerOpt opts.ff = some ffLower ∧
      ((ren = none ∧ lowerOpt opts.ffout = none) ∨
        (∃ s, ren = some s ∧ lowerOpt opts.ffout = some s ∧ s = ffLower)) ∧
      r = fullRunResult env opts ffLower st ren := by
  unfold runPDB2PQR at h
  split at h
  · exact Except.noConfusion h
  · rw [if_neg (by simp [hc])] at h
    split at h
    · exact Except.noConfusion h
    · rename_i st hst
      split at h
      · exact Except.noConfusion h
      · rename_i ffLower hff
        split at h
        · exact Except.noConfusion h
        · split at h
          · rename_i scheme hffout
            split at h
            · rename_i hscheme
              unfold finishRun at h
              split at h
              · exact Except.noConfusion h
              · exact ⟨st, ffLower, some scheme, hst, hff,
                  Or.inr ⟨scheme, rfl, hffout, hscheme⟩, (Except.ok.inj h).symm⟩
            · exact Except.noConfusion h
          · rename_i hffout
            unfold finishRun at h
            split at h
            · exact Except.noConfusion h
            · exact ⟨st, ffLower, none, hst, hff, Or.inl ⟨rfl, hffout⟩,
                (Except.ok.inj h).symm⟩

theorem runPDB2PQR_ok_drop_water (env : Env) (opts : Options) (p : Protein)
    (r : RunResult) (h : runPDB2PQR env opts p = Except.ok r) :
    opts.drop_water = false := by
  cases hb : opts.drop_water
  · rfl
  · unfold runPDB2PQR at h
    rw [hb] at h
    simp at h

/-! ### Field projections of the full-path result -/

theorem fullRunResult_misslist (env : Env) (opts : Options) (ffLower : String)
    (st : Protein × List StageEvent) (ren : Option String) :
    (fullRunResult env opts ffLower st ren).misslist =
      (applyForcefield env ffLower (setStates env st.1)).2.2 := rfl

theorem fullRunResult_reslist (env : Env) (opts : Options) (ffLower : String)
    (st : Protein × List StageEvent) (ren : Option String) :
    (fullRunResult env opts ffLower st ren).reslist =
      (getCharge (applyForcefield env ffLower (setStates env st.1)).1).1 := rfl

theorem fullRunResult_header (env : Env) (opts : Options) (ffLower : String)
    (st : Protein × List StageEvent) (ren : Option String) :
    (fullRunResult env opts ffLower st ren).header =
      printPQRHeader (applyForcefield env ffLower (setStates env st.1)).2.2
        (getCharge (applyForcefield env ffLower (setStates env st.1)).1).1
        (getCharge (applyForcefield env ffLower (setStates env st.1)).1).2
        ffLower opts := rfl

theorem fullRunResult_missedLigands (env : Env) (opts : Options) (ffLower : String)
    (st : Protein × List StageEvent) (ren : Option String) :
    (fullRunResult env opts ffLower st ren).missedLigands =
      some (missedLigandResidues
        (applyForcefield env ffLower (setStates env st.1)).2.2) := rfl

theorem fullRunResult_trace (env : Env) (opts : Options) (ffLower : String)
    (st : Protein × List StageEvent) (ren : Option String) :
    (fullRunResult env opts ffLower st ren).trace = fullTrace st.2 ren.isSome := rfl

theorem fullRunResult_lines_none (env : Env) (opts : Options) (ffLower : String)
    (st : Protein × List StageEvent) :
    (fullRunResult env opts ffLower st none).lines =
      (applyForcefield env ffLower (setStates env st.1)).2.1 := rfl

theorem fullRunResult_lines_some (env : Env) (opts : Options) (ffLower : String)
    (st : Protein × List StageEvent) (s : String) :
    (fullRunResult env opts ffLower st (some s)).lines =
      ((applyForcefield env ffLower (setStates env st.1)).2.1).map
        (renameAtom env s) := rfl

theorem fullRunResult_protein_none (env : Env) (opts : Options) (ffLower : String)
    (st : Protein × List StageEvent) :
    (fullRunResult env opts ffLower st none).protein =
      (applyForcefield env ffLower (setStates env st.1)).1 := rfl

/-! ### Atom-view preservation of the flag-only stages -/

theorem getAtoms_patchHIS (p : Protein) : getAtoms (patchHIS p) = getAtoms p := by
  unfold patchHIS
  apply getAtoms_mapResidues_of_atoms_eq
  intro r
  dsimp only
  split <;> rfl

theorem getAtoms_setStates (env : Env) (p : Protein) :
    getAtoms (setStates env p) = getAtoms p := by
  unfold setStates
  apply getAtoms_mapResidues_of_atoms_eq
  intro r
  dsimp only
  split <;> rfl

theorem getAtoms_prepped (opts : Options) (p : Protein) :
    getAtoms (prepped opts p) = getAtoms p := by
  unfold prepped updateBonds
  exact getAtoms_setTermini _ _ _

/-! ### Concrete fixture runs

The Batteries rational-number operations are `irreducible`, which blocks
`decide`-style evaluation of the pipeline on concrete fixtures; they are
restored to the default transparency for the evaluations below. -/

attribute [local semireducible] Rat.add Rat.mul Rat.sub Rat.inv

theorem prot1_unassigned : unassignedP prot1 := by
  intro a ha
  have hat : getAtoms prot1 = [atomN] := by decide
  rw [hat] at ha
  rcases List.mem_singleton.mp ha with rfl
  exact ⟨rfl, rfl⟩

theorem cleanRun_ok : runPDB2PQR env0 optsClean prot1 = Except.ok cleanRunResult := by
  decide

theorem missRun_ok : runPDB2PQR envMiss optsBase prot1 = Except.ok missRunResult := by
  decide

theorem assignRun_ok :
    runPDB2PQR env0 optsAssign protHIS = Except.ok assignRunResult := by
  decide

theorem noOptRun_ok : runPDB2PQR env0 optsNoOpt prot1 = Except.ok noOptRunResult := by
  decide

/-! ### Claims -/

/-- C1 (counterexample): the claim says the clean fast path skips all
chemistry stages including the whole Structural Repair stage, but on a
concrete clean run the executed trace contains termini assignment and bond
update — two Structural Repair duties (spec §4.1 (a) and (c)) — because the
source calls `setTermini` and `updateBonds` before testing `options.clean`. -/
theorem c1_clean_runs_repair_steps :
    StageEvent.setTerminiEv ∈ runTrace (runPDB2PQR env0 optsClean prot1) ∧
    StageEvent.updateBondsEv ∈ runTrace (runPDB2PQR env0 optsClean prot1) ∧
    StageEvent.setTerminiEv ∈ repairEvents ∧
    StageEvent.updateBondsEv ∈ repairEvents := by
  decide

/-- C1 (amended): for every clean run (waters not dropped), the pipeline
executes only termini assignment and bond update — skipping heavy-atom
reconstruction, disulfide detection, debumping, titration, hydrogens and
force-field assignment — and returns the structure re-serialized as-is: the
printed lines are exactly the input atoms (same atom set, coordinates, and
still-absent charges and radii), the header is empty, and the
missed-ligand diagnostic is absent. -/
theorem c1_clean_path (env : Env) (opts : Options) (p : Protein)
    (h1 : opts.clean = true) (h2 : opts.drop_water = false) :
    runPDB2PQR env opts p = Except.ok
      { header := [], lines := getAtoms p, missedLigands := none,
        protein := prepped opts p,
        trace := [StageEvent.setTerminiEv, StageEvent.updateBondsEv],
        misslist := [], reslist := [] } ∧
    getAtoms (prepped opts p) = getAtoms p := by
  have hA := getAtoms_prepped opts p
  refine ⟨?_, hA⟩
  rw [runPDB2PQR_clean_eq env opts p h1 h2, hA]

/-- C1 (witness): the amended clean-path theorem applied to the concrete
fixture run. -/
theorem c1_clean_path_witness :
    optsClean.clean = true ∧ optsClean.drop_water = false ∧
    (runPDB2PQR env0 optsClean prot1 = Except.ok
      { header := [], lines := getAtoms prot1, missedLigands := none,
        protein := prepped optsClean prot1,
        trace := [StageEvent.setTerminiEv, StageEvent.updateBondsEv],
        misslist := [], reslist := [] } ∧
      getAtoms (prepped optsClean prot1) = getAtoms prot1) :=
  ⟨rfl, rfl, c1_clean_path env0 optsClean prot1 rfl rfl⟩

/-- C2: two runs of the pipeline on identical input and identical
configuration (and the same external environment) return identical results —
in particular identical diagnostic lists (unassigned atoms,
non-integral-charge residues, missed-ligand names) and identical printed
atom lines in the same order.  The embedded pipeline is a pure function and
every stage, including candidate enumeration in the external search
routines, is modelled as deterministic as the spec requires. -/
theorem c2_determinism (env : Env) (o1 o2 : Options) (q1 q2 : Protein)
    (ho : o1 = o2) (hq : q1 = q2) :
    runPDB2PQR env o1 q1 = runPDB2PQR env o2 q2 ∧
    (resultOrDefault (runPDB2PQR env o1 q1)).misslist
      = (resultOrDefault (runPDB2PQR env o2 q2)).misslist ∧
    (resultOrDefault (runPDB2PQR env o1 q1)).reslist
      = (resultOrDefault (runPDB2PQR env o2 q2)).reslist ∧
    (resultOrDefault (runPDB2PQR env o1 q1)).missedLigands
      = (resultOrDefault (runPDB2PQR env o2 q2)).missedLigands ∧
    (resultOrDefault (runPDB2PQR env o1 q1)).lines
      = (resultOrDefault (runPDB2PQR env o2 q2)).lines := by
  subst ho
  subst hq
  exact ⟨rfl, rfl, rfl, rfl, rfl⟩

/-- C2 (witness): determinism instantiated on the concrete fixture run. -/
theorem c2_determinism_witness :
    optsBase = optsBase ∧ prot1 = prot1 ∧
    (runPDB2PQR env0 optsBase prot1 = runPDB2PQR env0 optsBase prot1 ∧
     (resultOrDefault (runPDB2PQR env0 optsBase prot1)).misslist
       = (resultOrDefault (runPDB2PQR env0 optsBase prot1)).misslist ∧
     (resultOrDefault (runPDB2PQR env0 optsBase prot1)).reslist
       = (resultOrDefault (runPDB2PQR env0 optsBase prot1)).reslist ∧
     (resultOrDefault (runPDB2PQR env0 optsBase prot1)).missedLigands
       = (resultOrDefault (runPDB2PQR env0 optsBase prot1)).missedLigands ∧
     (resultOrDefault (runPDB2PQR env0 optsBase prot1)).lines
       = (resultOrDefault (runPDB2PQR env0 optsBase prot1)).lines) :=
  ⟨rfl, rfl, c2_determinism env0 optsBase optsBase prot1 prot1 rfl rfl⟩

/-- C3 (counterexample): the claim quantifies over every configuration, but a
configuration with `clean = true` and pH 20 — far outside the valid range —
is accepted and the run completes, because the pH-range check sits inside
`if not args.clean`. -/
theorem c3_clean_run_accepts_bad_ph :
    (14 : ℚ) < optsCleanBadPh.ph ∧
    optsCleanBadPh.clean = true ∧
    isOkRun (mainCommand env0 optsCleanBadPh prot1) = true := by
  decide

/-- C3 (amended): for every non-clean configuration that passes the checks
ordered before the pH test (the userff/usernames pairing and force-field
loadability), a pH outside the range 0–14 is rejected with the fatal
configuration error before the pipeline is invoked. -/
theorem c3_ph_range_nonclean (env : Env) (args : Options) (p : Protein)
    (h1 : args.clean = false)
    (h2 : (args.userff.isSome && args.usernames.isNone) = false)
    (h3 : env.ffLoadable args.ff = true)
    (h4 : args.ph < 0 ∨ 14 < args.ph) :
    mainCommand env args p = Except.error Err.phOutOfRange := by
  unfold mainCommand
  cases hb : args.assign_only <;>
    simp [h1, hb, validateNonClean, h2, h3, h4, bind, Except.bind,
      pure, Except.pure, throw, throwThe, MonadExceptOf.throw]

/-- C3 (witness): the amended pH-range theorem applied to the concrete
out-of-range configuration. -/
theorem c3_ph_range_witness :
    optsBadPh.clean = false ∧
    (optsBadPh.userff.isSome && optsBadPh.usernames.isNone) = false ∧
    env0.ffLoadable optsBadPh.ff = true ∧
    (optsBadPh.ph < 0 ∨ 14 < optsBadPh.ph) ∧
    mainCommand env0 optsBadPh prot1 = Except.error Err.phOutOfRange :=
  ⟨rfl, rfl, rfl, Or.inr (by decide),
    c3_ph_range_nonclean env0 optsBadPh prot1 rfl rfl rfl (Or.inr (by decide))⟩

/-- C4: selecting a titration method on the full path makes the driver
evaluate the unbound name `ph` (source line 333/335) before either pKa
engine can be called: the run dies with a `NameError` instead of obtaining
pKa estimates from the selected engine, evaluated here on a concrete
PROPKA-configured run. -/
theorem c4_titration_crash :
    runPDB2PQR env0 optsPropka prot1 = Except.error (Err.unboundName "ph") := by
  decide

/-- C7: supplying a ligand makes the driver evaluate the unbound class name
`LIG` (source line 374) as soon as it inspects the first residue, before any
ligand residue is parameterized and before the integral-charge check with
tolerance 0.001 can run, evaluated here on a concrete ligand-configured
run. -/
theorem c7_ligand_crash :
    runPDB2PQR env0 optsLigand prot1 = Except.error (Err.unboundName "LIG") := by
  decide

/-- C5: in every completed non-clean run on an unannotated input model, each
atom whose force-field lookup missed stays without charge and radius (never
silently zeroed), sits in the missing list carried by the result, and is
omitted from the printed atom lines (every printed atom has an assigned
charge); whenever the missing list is non-empty the result's header carries
the unassigned-atom warning block, also on otherwise successful runs. -/
theorem c5_forcefield_misses (env : Env) (opts : Options) (p : Protein)
    (r : RunResult) (hin : unassignedP p) (hclean : opts.clean = false)
    (h : runPDB2PQR env opts p = Except.ok r) :
    (∀ a ∈ r.misslist, a.ffcharge = none ∧ a.radius = none ∧ a ∉ r.lines) ∧
    (r.misslist ≠ [] → Remark.unassignedWarning r.misslist ∈ r.header) ∧
    (∀ b ∈ r.lines, b.ffcharge ≠ none) := by
  obtain ⟨st, ffLower, ren, hst, hff, hren, hr⟩ :=
    runPDB2PQR_ok_inv env opts p r hclean h
  have hp2 : unassignedP (prepped opts p) := by
    unfold prepped updateBonds
    exact unassigned_setTermini _ _ _ hin
  have hst1 : unassignedP st.1 :=
    chemistryStages_unassigned env opts _ _ st.1 st.2 hst hp2
  have hp10 : unassignedP (setStates env st.1) := unassigned_setStates env _ hst1
  have hmiss : ∀ a ∈ (applyForcefield env ffLower (setStates env st.1)).2.2,
      unassignedAtom a :=
    applyForcefield_miss_unassigned env ffLower _ hp10
  have hhits : ∀ b ∈ (applyForcefield env ffLower (setStates env st.1)).2.1,
      b.ffcharge ≠ none :=
    applyForcefield_hit_assigned env ffLower _
  subst hr
  have hlines : ∀ b ∈ (fullRunResult env opts ffLower st ren).lines,
      b.ffcharge ≠ none := by
    rcases hren with ⟨hren0, _⟩ | ⟨s, hrens, _, _⟩
    · subst hren0
      rw [fullRunResult_lines_none]
      exact hhits
    · subst hrens
      rw [fullRunResult_lines_some]
      intro b hb
      rcases List.mem_map.mp hb with ⟨b0, hb0, rfl⟩
      rw [renameAtom_ffcharge]
      exact hhits b0 hb0
  refine ⟨?_, ?_, hlines⟩
  · intro a ha
    rw [fullRunResult_misslist] at ha
    obtain ⟨hfc, hrad⟩ := hmiss a ha
    exact ⟨hfc, hrad, fun hmem => hlines a hmem hfc⟩
  · intro hne
    rw [fullRunResult_misslist] at hne
    rw [fullRunResult_header, fullRunResult_misslist]
    have hie : (applyForcefield env ffLower (setStates env st.1)).2.2.isEmpty = false := by
      cases hM : (applyForcefield env ffLower (setStates env st.1)).2.2
      · exact absurd hM hne
      · rfl
    unfold printPQRHeader
    rw [hie]
    simp

/-- C5 (witness): the missed-lookup theorem applied to the concrete run in
which atom `"N"` has no parameters. -/
theorem c5_witness :
    unassignedP prot1 ∧ optsBase.clean = false ∧
    ((∀ a ∈ missRunResult.misslist,
        a.ffcharge = none ∧ a.radius = none ∧ a ∉ missRunResult.lines) ∧
     (missRunResult.misslist ≠ [] →
        Remark.unassignedWarning missRunResult.misslist ∈ missRunResult.header) ∧
     (∀ b ∈ missRunResult.lines, b.ffcharge ≠ none)) :=
  ⟨prot1_unassigned, rfl,
    c5_forcefield_misses envMiss optsBase prot1 missRunResult prot1_unassigned rfl
      missRun_ok⟩

/-- C6 (counterexample): the claim says assign-only applies only
charge/radius assignment and naming remap, but a concrete assign-only run
patches a histidine residue to the fully protonated HIP variant and still
performs termini assignment (a Structural Repair duty), as recorded in the
trace and in the residue's final protonation state. -/
theorem c6_assign_only_his_patch :
    optsAssign.assign_only = true ∧
    StageEvent.applyPatchEv "HIP" ∈ runTrace (runPDB2PQR env0 optsAssign protHIS) ∧
    StageEvent.setTerminiEv ∈ runTrace (runPDB2PQR env0 optsAssign protHIS) ∧
    (getResidues (resultOrDefault (runPDB2PQR env0 optsAssign protHIS)).protein).any
      (fun r => r.name == "HIS" && r.protonation == some "HIP") = true := by
  decide

/-- C6 (amended): in every completed assign-only run (with no output naming
scheme), no reconstruction, disulfide-detection, debumping,
hydrogen-addition or optimization stage executes, and the model's atom
identities — serial, name and coordinate — are exactly those of the input:
beyond parameter annotation the run performs only the termini/bond
pre-steps, the HIS→HIP patch and protonation-state bookkeeping, none of
which touch the atom set. -/
theorem c6_assign_only_frame (env : Env) (opts : Options) (p : Protein)
    (r : RunResult) (h1 : opts.assign_only = true) (h2 : opts.clean = false)
    (h3 : opts.ffout = none) (h : runPDB2PQR env opts p = Except.ok r) :
    (∀ e ∈ r.trace, e ∉ skippedAssignEvents) ∧
    (getAtoms r.protein).map stripAtom = (getAtoms p).map stripAtom := by
  obtain ⟨st, ffLower, ren, hst, hff, hren, hr⟩ :=
    runPDB2PQR_ok_inv env opts p r h2 h
  rw [chemistryStages_assign env opts _ _ h1] at hst
  have hst' : st = (patchHIS (prepped opts p), patchEvents (prepped opts p)) :=
    (Except.ok.inj hst).symm
  have hrenn : ren = none := by
    rcases hren with ⟨h0, _⟩ | ⟨s, _, hsome, _⟩
    · exact h0
    · rw [h3] at hsome
      simp [lowerOpt] at hsome
  subst hr
  subst hst'
  subst hrenn
  constructor
  · intro e he
    rw [fullRunResult_trace] at he
    have he' : e = StageEvent.setTerminiEv ∨ e = StageEvent.updateBondsEv ∨
        e ∈ patchEvents (prepped opts p) ∨ e = StageEvent.setStatesEv ∨
        e = StageEvent.applyForcefieldEv := by
      simpa [fullTrace, List.mem_append, or_assoc] using he
    rcases he' with rfl | rfl | hpe | rfl | rfl
    · decide
    · decide
    · rw [patchEvents_mem _ e hpe]
      decide
    · decide
    · decide
  · rw [fullRunResult_protein_none, applyForcefield_strip, getAtoms_setStates,
      getAtoms_patchHIS, getAtoms_prepped]

/-- C6 (witness): the amended assign-only theorem applied to the concrete
histidine fixture run. -/
theorem c6_witness :
    optsAssign.assign_only = true ∧ optsAssign.clean = false ∧
    optsAssign.ffout = none ∧
    ((∀ e ∈ assignRunResult.trace, e ∉ skippedAssignEvents) ∧
     (getAtoms assignRunResult.protein).map stripAtom
       = (getAtoms protHIS).map stripAtom) :=
  ⟨rfl, rfl, rfl,
    c6_assign_only_frame env0 optsAssign protHIS assignRunResult rfl rfl rfl
      assignRun_ok⟩

/-- C8 (counterexample): the claim says every run in which full hydrogen
optimization is not requested runs the optimizer in the restricted
water-only mode, but a concrete assign-only run — not a clean run, so not
covered by the clean override, and with full optimization not requested —
completes while running no optimizer at all: neither the water-only nor the
full optimizer event appears in its trace. -/
theorem c8_assign_only_skips_optimizer :
    optsAssign.opt = false ∧
    optsAssign.clean = false ∧
    optsAssign.assign_only = true ∧
    isOkRun (runPDB2PQR env0 optsAssign protHIS) = true ∧
    StageEvent.waterOptimizeEv ∉ runTrace (runPDB2PQR env0 optsAssign protHIS) ∧
    StageEvent.fullOptimizeEv ∉ runTrace (runPDB2PQR env0 optsAssign protHIS) := by
  decide

/-- C8 (amended): in every completed full-pipeline run (not clean, not
assign-only) in which full hydrogen optimization is not requested, the
optimizer runs in water-only mode and the full optimizer never runs; and the
water-only mode by construction maps every residue through
`waterOptResidue`, which leaves every non-water residue unchanged — in
particular its atom list, and with it every non-water atom's coordinates,
is exactly what it was before the pass. -/
theorem c8_water_only_mode (env : Env) (opts : Options) (p : Protein)
    (r : RunResult) (h1 : opts.clean = false) (h2 : opts.assign_only = false)
    (h3 : opts.opt = false) (h : runPDB2PQR env opts p = Except.ok r) :
    StageEvent.waterOptimizeEv ∈ r.trace ∧
    StageEvent.fullOptimizeEv ∉ r.trace ∧
    (∀ (e : Env) (q : Protein),
        getResidues (waterOptimize e q) = (getResidues q).map (waterOptResidue e)) ∧
    (∀ (e : Env) (s : Residue), s.rclass ≠ ResidueClass.water →
        waterOptResidue e s = s) ∧
    (∀ (e : Env) (s : Residue), s.rclass ≠ ResidueClass.water →
        (waterOptResidue e s).atoms = s.atoms) := by
  obtain ⟨st, ffLower, ren, hst, hff, hren, hr⟩ :=
    runPDB2PQR_ok_inv env opts p r h1 h
  have htr := chemistryStages_ok_trace env opts _ _ st.1 st.2 hst h2
  rw [h3] at htr
  subst hr
  rw [fullRunResult_trace]
  have hfix : ∀ (e : Env) (s : Residue), s.rclass ≠ ResidueClass.water →
      waterOptResidue e s = s := by
    intro e s hs
    unfold waterOptResidue
    rw [if_neg hs]
  refine ⟨?_, ?_, ?_, hfix, ?_⟩
  · unfold fullTrace
    rw [htr]
    simp
  · unfold fullTrace
    rw [htr]
    rcases hdb : opts.debump <;>
      rcases hfm : (!(chemCount opts p == 0 && opts.ligand.isSome)) <;>
      rcases ren with _ | s <;>
      simp [hdb, hfm]
  · intro e q
    exact getResidues_mapResidues (waterOptResidue e) q
  · intro e s hs
    rw [hfix e s hs]

/-- C8 (witness): the amended water-only theorem applied to the concrete
no-optimization fixture run. -/
theorem c8_witness :
    optsNoOpt.clean = false ∧ optsNoOpt.assign_only = false ∧
    optsNoOpt.opt = false ∧
    (StageEvent.waterOptimizeEv ∈ noOptRunResult.trace ∧
     StageEvent.fullOptimizeEv ∉ noOptRunResult.trace ∧
     (∀ (e : Env) (q : Protein),
        getResidues (waterOptimize e q) = (getResidues q).map (waterOptResidue e)) ∧
     (∀ (e : Env) (s : Residue), s.rclass ≠ ResidueClass.water →
        waterOptResidue e s = s) ∧
     (∀ (e : Env) (s : Residue), s.rclass ≠ ResidueClass.water →
        (waterOptResidue e s).atoms = s.atoms)) :=
  ⟨rfl, rfl, rfl,
    c8_water_only_mode env0 optsNoOpt prot1 noOptRunResult rfl rfl rfl noOptRun_ok⟩

/-- C9: a completed clean run returns an empty header and `none` (Python
`None`) — rather than an empty list — for the missed-ligand-residues
diagnostic, while a completed full run always returns a non-empty header and
`some` list there: the two paths' return shapes differ. -/
theorem c9_clean_return_shape (env : Env) (opts : Options) (p : Protein)
    (r : RunResult) (h : runPDB2PQR env opts p = Except.ok r) :
    (opts.clean = true → r.header = [] ∧ r.missedLigands = none) ∧
    (opts.clean = false → r.header ≠ [] ∧ r.missedLigands ≠ none) := by
  constructor
  · intro hc
    have hdw := runPDB2PQR_ok_drop_water env opts p r h
    rw [runPDB2PQR_clean_eq env opts p hc hdw] at h
    have hr := Except.ok.inj h
    rw [← hr]
    exact ⟨rfl, rfl⟩
  · intro hc
    obtain ⟨st, ffLower, ren, _, _, _, hr⟩ := runPDB2PQR_ok_inv env opts p r hc h
    subst hr
    constructor
    · rw [fullRunResult_header]
      intro hcontra
      simp [printPQRHeader] at hcontra
    · rw [fullRunResult_missedLigands]
      simp

/-- C9 (witness): the return-shape theorem applied to the concrete clean
fixture run. -/
theorem c9_witness :
    (optsClean.clean = true →
       cleanRunResult.header = [] ∧ cleanRunResult.missedLigands = none) ∧
    (optsClean.clean = false →
       cleanRunResult.header ≠ [] ∧ cleanRunResult.missedLigands ≠ none) :=
  c9_clean_return_shape env0 optsClean prot1 cleanRunResult cleanRun_ok

/-- C10: with `clean = true` the whole clean-guarded validation block —
userff/usernames pairing, force-field loadability and the pH-range check —
is skipped: for every environment and every values of `ph`, `ff`, `userff`
and `usernames`, a clean configuration (with the unguarded checks
satisfied) goes straight to the pipeline and the run is accepted. -/
theorem c10_clean_skips_validation (env : Env) (args : Options) (p : Protein)
    (h1 : args.clean = true) (h2 : args.pka_method = none)
    (h3 : args.ligand = none) (h4 : args.neutraln = false)
    (h5 : args.neutralc = false) (h6 : args.drop_water = false) :
    mainCommand env args p =
      runPDB2PQR env { args with debump := false, opt := false } p ∧
    isOkRun (mainCommand env args p) = true := by
  have hmc : mainCommand env args p =
      runPDB2PQR env { args with debump := false, opt := false } p := by
    unfold mainCommand
    simp [h1, h2, h3, h4, h5, bind, Except.bind, pure, Except.pure]
  refine ⟨hmc, ?_⟩
  rw [hmc,
    runPDB2PQR_clean_eq env { args with debump := false, opt := false } p h1 h6]
  rfl

/-- C10 (witness): the validation-skipping theorem applied to a clean
configuration that violates the pH range, the userff/usernames pairing and
force-field loadability at once, in an environment in which no force field
loads. -/
theorem c10_witness :
    optsCleanChaos.clean = true ∧ optsCleanChaos.pka_method = none ∧
    optsCleanChaos.ligand = none ∧ optsCleanChaos.neutraln = false ∧
    optsCleanChaos.neutralc = false ∧ optsCleanChaos.drop_water = false ∧
    (mainCommand envStrict optsCleanChaos prot1 =
        runPDB2PQR envStrict
          { optsCleanChaos with debump := false, opt := false } prot1 ∧
     isOkRun (mainCommand envStrict optsCleanChaos prot1) = true) :=
  ⟨rfl, rfl, rfl, rfl, rfl, rfl,
    c10_clean_skips_validation envStrict optsCleanChaos prot1 rfl rfl rfl rfl rfl rfl⟩

end PDB2PQR
